import Mathlib

/-!
Shallow embedding of `main.go` of the cert-manager DNSPod webhook
(package `main`), together with theorems settling the specification
claims about it.

Go strings are modelled as `List Char` (the inputs involved are ASCII
DNS names, secret names and error messages, so byte indices and
character indices coincide).  Go maps are modelled as association
lists with first-match lookup, map insertion as a shadowing cons.
Fallible Go calls returning `(value, error)` are modelled with
`Except` (or with an explicit pair where the Go code also uses the
value alongside a non-nil error, as `CleanUp` does with the record
listing).  The external collaborators (Kubernetes secret store, the
DNSPod HTTP API and the recursive-DNS zone helper) are modelled as an
explicit environment of oracles, one per outbound call.
-/

/-- A Go string, as a list of its characters. -/
abbrev GoString := List Char

/-- Model of `strings.Index(s, substr)`: the byte index of the first occurrence of
`substr` in `s`, or `none` for Go's `-1`.  Scans positions left to right
and returns the first position where `substr` is a prefix of the rest. -/
def strIndex (sub : GoString) : GoString → Option Nat
  | [] => if sub.isEmpty then some 0 else none
  | c :: rest =>
    if sub.isPrefixOf (c :: rest) then some 0
    else (strIndex sub rest).map (· + 1)

/-- Model of `strings.Contains(s, substr)`, which Go defines as `Index(s, substr) >= 0`. -/
def goContains (s sub : GoString) : Bool :=
  (strIndex sub s).isSome

/-- Model of `util.UnFqdn` from the cert-manager dns utilities (an external helper
of this repository): strips one trailing dot, if present.
Go: `if n != 0 && name[n-1] == '.' { return name[:n-1] }; return name`. -/
def unFqdn (name : GoString) : GoString :=
  if name ≠ [] ∧ name.getLast? = some '.' then name.dropLast else name

/-- Embedding of `extractRecordName` from `main.go`:
```
if idx := strings.Index(fqdn, "."+zone); idx != -1 {
    return fqdn[:idx]
}
return util.UnFqdn(fqdn)
``` -/
def extractRecordName (fqdn zone : GoString) : GoString :=
  match strIndex ('.' :: zone) fqdn with
  | some idx => fqdn.take idx
  | none => unFqdn fqdn

-- ## The configuration data model and `loadConfig`

/-- A parsed JSON document, as `encoding/json` sees the raw bytes of
`cfgJSON.Raw`.  Numbers are modelled as integers, which covers every
value relevant to this program (the only numeric key is `ttl`). -/
inductive Json where
  | null
  | bool (b : Bool)
  | num (n : Int)
  | str (s : GoString)
  | arr (elems : List Json)
  | obj (fields : List (GoString × Json))

/-- The `*extapi.JSON` raw payload handed to `loadConfig`: either bytes
that are not syntactically valid JSON, or a parsed JSON document. -/
inductive RawJSON where
  | malformed
  | wellFormed (j : Json)

/-- Embedding of `apiTokenSecretRef` from `main.go`.  NOTE: in the Go source both
fields are unexported (lowercase `name`, `namespace`) and carry no
`json:` tags. -/
structure apiTokenSecretRef where
  name : GoString
  «namespace» : GoString
deriving DecidableEq

/-- Embedding of `customDNSProviderConfig` from `main.go`: exported fields
`APITokenSecret` (tag `json:"apiTokenSecret"`) and `TTL` (tag `json:"ttl"`). -/
structure customDNSProviderConfig where
  APITokenSecret : apiTokenSecretRef
  TTL : Int
deriving DecidableEq

/-- Model of `json.Unmarshal` of a JSON value into a Go `apiTokenSecretRef`.
Per the `encoding/json` documentation, `Unmarshal` only sets exported
struct fields.  `apiTokenSecretRef` has no exported fields, so a JSON
object's keys match no field and every key/value pair is discarded;
`null` is a no-op; any non-object, non-null value is a type error. -/
def unmarshalTokenRef (j : Json) (ref : apiTokenSecretRef) :
    Except GoString apiTokenSecretRef :=
  match j with
  | .null => .ok ref
  | .obj _ => .ok ref
  | _ => .error ("json: cannot unmarshal value into Go struct field of type main.apiTokenSecretRef".toList)

/-- Model of `json.Unmarshal` of a JSON value into a Go `customDNSProviderConfig`
that already holds the default values (Go unmarshals over the existing
struct contents, so absent keys keep their prior values).  Keys are
processed in document order, later duplicates overwriting earlier ones,
unknown keys ignored.  (Go also admits case-insensitive key matches;
the exact-case match modelled here is the one this program's config
schema uses.) -/
def unmarshalConfig (j : Json) (cfg : customDNSProviderConfig) :
    Except GoString customDNSProviderConfig :=
  match j with
  | .null => .ok cfg
  | .obj fields =>
    fields.foldlM (fun acc kv =>
      if kv.1 = "apiTokenSecret".toList then
        match unmarshalTokenRef kv.2 acc.APITokenSecret with
        | .error e => .error e
        | .ok r => .ok { acc with APITokenSecret := r }
      else if kv.1 = "ttl".toList then
        match kv.2 with
        | .num n => .ok { acc with TTL := n }
        | _ => .error ("json: cannot unmarshal value into Go struct field customDNSProviderConfig.ttl of type int".toList)
      else .ok acc) cfg
  | _ => .error ("json: cannot unmarshal value into Go value of type main.customDNSProviderConfig".toList)

/-- Embedding of `loadConfig` from `main.go`: start from the defaults
(`dnspod-credentials` / `default` / TTL 600), return them unchanged for
a nil input, otherwise `json.Unmarshal` the raw payload over them,
wrapping a decode failure. -/
def loadConfig (cfgJSON : Option RawJSON) : Except GoString customDNSProviderConfig :=
  let cfg : customDNSProviderConfig :=
    { APITokenSecret :=
        { name := "dnspod-credentials".toList
          «namespace» := "default".toList }
      TTL := 600 }
  match cfgJSON with
  | none => .ok cfg
  | some .malformed =>
    .error ("error decoding solver config: invalid character".toList)
  | some (.wellFormed j) =>
    match unmarshalConfig j cfg with
    | .error e => .error ("error decoding solver config: ".toList ++ e)
    | .ok cfg2 => .ok cfg2

-- ## The provider-side data model and the outbound-call environment

/-- The part of a Kubernetes `*v1.Secret` this program reads: the
byte-map `Data` (modelled as an association list of string keys to
byte-string values) and the `ResourceVersion` string. -/
structure Secret where
  data : List (GoString × GoString)
  resourceVersion : GoString
deriving DecidableEq

/-- The part of a `dnspod.Client` determined by its construction in
`getDNSPod`: `dnspod.NewClient(dnspod.CommonParams{LoginToken: key, Format: "json"})`. -/
structure DnspodClient where
  loginToken : GoString
  format : GoString
deriving DecidableEq

/-- Embedding of `cachedDnspodClient` from `main.go`. -/
structure cachedDnspodClient where
  client : DnspodClient
  secretVersion : GoString
deriving DecidableEq

/-- The solver's `dnspod map[string]cachedDnspodClient` cache. -/
abbrev Cache := List (GoString × cachedDnspodClient)

/-- The fields of a `dnspod.Domain` this program reads: `ID` (a
`json.Number`, i.e. a decimal string) and `Name`. -/
structure Domain where
  id : GoString
  name : GoString
deriving DecidableEq

/-- The fields of a `dnspod.Record` this program reads or writes. -/
structure Record where
  id : GoString
  name : GoString
  recordType : GoString
  value : GoString
  line : GoString
  ttl : GoString
deriving DecidableEq

/-- One oracle per outbound call: the Kubernetes secret store
(`Secrets(ns).Get(name, ...)`), the DNSPod API
(`Domains.List`, `Domains.ListRecords`, `Domains.DeleteRecord`) and the
recursive-DNS helper (`util.FindZoneByFqdn`).  `listRecords` returns
its record slice alongside the error, as the Go client does, because
`findTxtRecords`/`CleanUp` forward that slice even on error. -/
structure Env where
  getSecret : GoString → GoString → Except GoString Secret
  listDomains : Except GoString (List Domain)
  findZoneByFqdn : GoString → Except GoString GoString
  listRecords : GoString → GoString → List Record × Except GoString Unit
  deleteRecord : GoString → GoString → Except GoString Unit

/-- The parts of a `*v1alpha1.ChallengeRequest` this program reads. -/
structure ChallengeRequest where
  config : Option RawJSON
  resolvedZone : GoString
  resolvedFQDN : GoString
  key : GoString

/-- The cache key `fmt.Sprintf("%s/%s", secretNS, secretName)` computed
at the top of `getDNSPod`. -/
def secretFQN (cfg : customDNSProviderConfig) : GoString :=
  cfg.APITokenSecret.«namespace» ++ '/' :: cfg.APITokenSecret.name

/-- The rebuild branch of `getDNSPod` (the body of
`if !ok || cached.SecretVersion != secret.ResourceVersion`): extract the
`id` and `token` fields of the secret's data, failing with a descriptive
error if either is absent, build a client from
`fmt.Sprintf("%s,%s", apiId, apiToken)` and store it in the cache under
the key with the secret's current version. -/
def buildAndStore (cache : Cache) (fqn : GoString) (secret : Secret) :
    Except GoString DnspodClient × Cache :=
  match secret.data.lookup ("id".toList) with
  | none => (.error ("no `id` in secret '".toList ++ fqn ++ "'".toList), cache)
  | some apiId =>
    match secret.data.lookup ("token".toList) with
    | none => (.error ("no `token` in secret '".toList ++ fqn ++ "'".toList), cache)
    | some apiToken =>
      let key := apiId ++ ',' :: apiToken
      let dnspodClient : DnspodClient := { loginToken := key, format := "json".toList }
      let cached : cachedDnspodClient :=
        { client := dnspodClient, secretVersion := secret.resourceVersion }
      (.ok cached.client, (fqn, cached) :: cache)

/-- Embedding of `getDNSPod` from `main.go`.  (The Go method also receives the
challenge request but never reads it; only the config is used.)  The
resulting cache state is returned explicitly: on every error path the
map mutation has not happened and the cache is unchanged. -/
def getDNSPod (env : Env) (cache : Cache) (cfg : customDNSProviderConfig) :
    Except GoString DnspodClient × Cache :=
  let fqn := secretFQN cfg
  match env.getSecret cfg.APITokenSecret.«namespace» cfg.APITokenSecret.name with
  | .error e => (.error e, cache)
  | .ok secret =>
    match cache.lookup fqn with
    | some cached =>
      if cached.secretVersion = secret.resourceVersion then
        (.ok cached.client, cache)
      else
        buildAndStore cache fqn secret
    | none => buildAndStore cache fqn secret

/-- Model of `fmt.Sprintf("%d", n)` for an `int64`. -/
def goFormatInt (n : Int) : GoString :=
  (toString n).toList

/-- Model of `json.Number.Int64`, i.e. `strconv.ParseInt(string(n), 10, 64)`: an
optional sign followed by at least one decimal digit, value within the
signed 64-bit range; anything else is an error.  The zero value of
`json.Number` is the empty string, which fails to parse. -/
def goParseInt64 (s : GoString) : Except GoString Int :=
  let signAndDigits : Bool × GoString :=
    match s with
    | '+' :: rest => (false, rest)
    | '-' :: rest => (true, rest)
    | _ => (false, s)
  let digits := signAndDigits.2
  if digits.isEmpty || !(digits.all fun c => decide ('0' ≤ c) && decide (c ≤ '9')) then
    .error ("strconv.ParseInt: parsing: invalid syntax".toList)
  else
    let mag : Int := digits.foldl (fun acc c => acc * 10 + Int.ofNat (c.toNat - '0'.toNat)) 0
    let v : Int := if signAndDigits.1 then -mag else mag
    if v < -(2 ^ 63) ∨ 2 ^ 63 ≤ v then
      .error ("strconv.ParseInt: parsing: value out of range".toList)
    else .ok v

/-- Embedding of `getDomainID` from `main.go`: list the account's domains, resolve
the authoritative zone, take the first domain whose name equals the
zone with its trailing dot stripped (the zero-value `dnspod.Domain`
when none matches), parse its `ID`, and reject identifier 0. -/
def getDomainID (env : Env) (zone : GoString) : Except GoString GoString :=
  match env.listDomains with
  | .error e => .error ("dnspod API call failed: ".toList ++ e)
  | .ok domains =>
    match env.findZoneByFqdn zone with
    | .error e => .error e
    | .ok authZone =>
      let hostedDomain := (domains.find? fun d => d.name == unFqdn authZone).getD ⟨[], []⟩
      match goParseInt64 hostedDomain.id with
      | .error e => .error e
      | .ok hostedDomainID =>
        if hostedDomainID = 0 then
          .error ("Zone ".toList ++ authZone ++ " not found in dnspod for zone ".toList ++ zone)
        else .ok (goFormatInt hostedDomainID)

/-- Embedding of `findTxtRecords` from `main.go`: list the records under the
computed relative record name; on error, forward the record slice and
wrap the error message. -/
def findTxtRecords (env : Env) (domainID zone fqdn : GoString) :
    List Record × Except GoString Unit :=
  let recordName := extractRecordName fqdn zone
  match env.listRecords domainID recordName with
  | (records, .error e) =>
    (records, .error ("dnspod API call has failed: ".toList ++ e))
  | (records, .ok _) => (records, .ok ())

/-- The `for _, record := range records` loop of `CleanUp`: skip records
whose value differs from the challenge key, delete the others by ID,
returning on the first deletion error.  Also returns the trace of
record IDs for which a deletion call was issued. -/
def cleanupLoop (key : GoString) (deleteRecord : GoString → Except GoString Unit) :
    List Record → List GoString × Except GoString Unit
  | [] => ([], .ok ())
  | record :: rest =>
    if record.value ≠ key then cleanupLoop key deleteRecord rest
    else
      match deleteRecord record.id with
      | .error e => ([record.id], .error e)
      | .ok _ =>
        let tail := cleanupLoop key deleteRecord rest
        (record.id :: tail.1, tail.2)

/-- Embedding of `CleanUp` from `main.go`.  Returns the call's error result, the
cache state after the embedded `getDNSPod` call, and the trace of
record IDs for which a deletion call was issued. -/
def CleanUp (env : Env) (cache : Cache) (ch : ChallengeRequest) :
    Except GoString Unit × Cache × List GoString :=
  match loadConfig ch.config with
  | .error e => (.error e, cache, [])
  | .ok cfg =>
    match getDNSPod env cache cfg with
    | (.error e, cache2) => (.error e, cache2, [])
    | (.ok _dnspodClient, cache2) =>
      match getDomainID env ch.resolvedZone with
      | .error e => (.error e, cache2, [])
      | .ok domainID =>
        match findTxtRecords env domainID ch.resolvedZone ch.resolvedFQDN with
        | (records, .error e) =>
          if goContains e ("No records".toList) then
            let looped := cleanupLoop ch.key (env.deleteRecord domainID) records
            (looped.2, cache2, looped.1)
          else (.error e, cache2, [])
        | (records, .ok _) =>
          let looped := cleanupLoop ch.key (env.deleteRecord domainID) records
          (looped.2, cache2, looped.1)

-- ## Facts about `strIndex`

/-- If `strIndex` returns `some i`, the pattern occurs at position `i`. -/
theorem strIndex_some_isPrefixOf (sub : GoString) (s : GoString) (i : Nat)
    (h : strIndex sub s = some i) : sub.isPrefixOf (s.drop i) = true := by
  induction s generalizing i with
  | nil =>
    unfold strIndex at h
    by_cases hsub : sub.isEmpty
    · simp [hsub] at h
      subst h
      cases sub with
      | nil => simp [List.isPrefixOf]
      | cons a l => simp [List.isEmpty] at hsub
    · simp [hsub] at h
  | cons c rest ih =>
    unfold strIndex at h
    by_cases hpre : sub.isPrefixOf (c :: rest)
    · simp [hpre] at h
      subst h
      simpa using hpre
    · simp [hpre] at h
      obtain ⟨j, hj, hji⟩ := h
      subst hji
      simpa using ih j hj

/-- The scan of `strIndex` returns the first occurrence: no earlier position matches. -/
theorem strIndex_some_min (sub : GoString) (s : GoString) (i : Nat)
    (h : strIndex sub s = some i) :
    ∀ j, j < i → sub.isPrefixOf (s.drop j) = false := by
  induction s generalizing i with
  | nil =>
    unfold strIndex at h
    by_cases hsub : sub.isEmpty
    · simp [hsub] at h
      subst h
      intro j hj
      omega
    · simp [hsub] at h
  | cons c rest ih =>
    unfold strIndex at h
    by_cases hpre : sub.isPrefixOf (c :: rest)
    · simp [hpre] at h
      subst h
      intro j hj
      omega
    · simp [hpre] at h
      obtain ⟨k, hk, hki⟩ := h
      subst hki
      intro j hj
      cases j with
      | zero => simpa using eq_false_of_ne_true hpre
      | succ j' => simpa using ih k hk j' (by omega)

/-- If the pattern occurs somewhere in `s`, `strIndex` finds an occurrence. -/
theorem strIndex_isSome_of_isPrefixOf (sub : GoString) (s : GoString) (j : Nat)
    (h : sub.isPrefixOf (s.drop j) = true) : (strIndex sub s).isSome = true := by
  induction s generalizing j with
  | nil =>
    simp only [List.drop_nil] at h
    have hsub : sub = [] := by
      cases sub with
      | nil => rfl
      | cons a l => simp [List.isPrefixOf] at h
    subst hsub
    simp [strIndex]
  | cons c rest ih =>
    unfold strIndex
    by_cases hpre : sub.isPrefixOf (c :: rest)
    · simp [hpre]
    · simp only [hpre, if_false]
      cases j with
      | zero =>
        rw [List.drop_zero] at h
        exact absurd h hpre
      | succ j' =>
        simp only [List.drop_succ_cons] at h
        have := ih j' h
        simpa using this

/-- Every list passes `isPrefixOf` against itself. -/
theorem isPrefixOf_self (l : GoString) : l.isPrefixOf l = true := by
  induction l with
  | nil => rfl
  | cons a l ih => simp [List.isPrefixOf, ih]

theorem strIndex_none_not_isPrefixOf (sub : GoString) (s : GoString)
    (h : strIndex sub s = none) :
    ∀ j, sub.isPrefixOf (s.drop j) = false := by
  intro j
  by_contra hj
  have hj' : sub.isPrefixOf (s.drop j) = true := by
    cases hb : sub.isPrefixOf (s.drop j) with
    | false => exact absurd hb hj
    | true => rfl
  have := strIndex_isSome_of_isPrefixOf sub s j hj'
  rw [h] at this
  simp at this

-- quick sanity checks of the embedding on concrete inputs
example : extractRecordName ("_acme-challenge.example.com.".toList) ("example.com.".toList)
    = "_acme-challenge".toList := by decide
example : extractRecordName ("foo.org.".toList) ("example.com.".toList)
    = "foo.org".toList := by decide

-- ## Claims C1 and C2: the relative record name

/-- C1 (counterexample): the claim says that whenever the FQDN ends with
`"." + zone`, the computed name is the prefix of the FQDN before that
final suffix.  But `extractRecordName` cuts at the FIRST occurrence of
`"." + zone`: with FQDN `x.b.c.b.c` and zone `b.c` the claim predicts
`x.b.c`, while the code returns `x`. -/
theorem extractRecordName_suffix_claim_counterexample :
    ('.' :: "b.c".toList).isSuffixOf ("x.b.c.b.c".toList) = true ∧
    extractRecordName ("x.b.c.b.c".toList) ("b.c".toList)
      ≠ ("x.b.c.b.c".toList).take
          (("x.b.c.b.c".toList).length - (("b.c".toList).length + 1)) := by
  decide

/-- C1 (amended): if the FQDN ends with `"." + zone` and `"." + zone`
occurs at no other position of the FQDN, then `extractRecordName`
returns the prefix of the FQDN before that suffix. -/
theorem extractRecordName_of_suffix_unique (f z : GoString)
    (hsuf : ('.' :: z).isSuffixOf f = true)
    (huniq : ∀ j, j < f.length → ('.' :: z).isPrefixOf (f.drop j) = true →
      j = f.length - (z.length + 1)) :
    extractRecordName f z = f.take (f.length - (z.length + 1)) := by
  obtain ⟨t, ht⟩ := List.isSuffixOf_iff_suffix.mp hsuf
  have hlen : f.length = t.length + (z.length + 1) := by
    rw [← ht]; simp
  have hdrop : f.drop t.length = '.' :: z := by
    rw [← ht]; exact List.drop_left t ('.' :: z)
  have hocc : ('.' :: z).isPrefixOf (f.drop t.length) = true := by
    rw [hdrop]
    exact isPrefixOf_self ('.' :: z)
  have hsome := strIndex_isSome_of_isPrefixOf ('.' :: z) f t.length hocc
  obtain ⟨i, hi⟩ := Option.isSome_iff_exists.mp hsome
  have hpre_i := strIndex_some_isPrefixOf ('.' :: z) f i hi
  have hle : i ≤ t.length := by
    by_contra hlt
    have := strIndex_some_min ('.' :: z) f i hi t.length (by omega)
    rw [this] at hocc
    simp at hocc
  have hibound : i < f.length := by omega
  have hieq : i = f.length - (z.length + 1) := huniq i hibound hpre_i
  unfold extractRecordName
  rw [hi, hieq]

/-- Witness for the amended C1 at FQDN `a.b.c`, zone `b.c`. -/
theorem extractRecordName_of_suffix_unique_witness :
    extractRecordName ("a.b.c".toList) ("b.c".toList)
      = ("a.b.c".toList).take
          (("a.b.c".toList).length - (("b.c".toList).length + 1)) :=
  extractRecordName_of_suffix_unique ("a.b.c".toList) ("b.c".toList)
    (by decide) (by decide)

/-- C2 (counterexample): the claim says that whenever the FQDN does not
end with `"." + zone`, the code returns the FQDN with a trailing dot
stripped.  But `extractRecordName` tests containment, not suffixhood:
with FQDN `a.b.c.x` and zone `b.c` the claim predicts `a.b.c.x`, while
the code finds `.b.c` at position 1 and returns `a`. -/
theorem extractRecordName_nonsuffix_claim_counterexample :
    ('.' :: "b.c".toList).isSuffixOf ("a.b.c.x".toList) = false ∧
    extractRecordName ("a.b.c.x".toList) ("b.c".toList)
      ≠ unFqdn ("a.b.c.x".toList) := by
  decide

/-- C2 (amended): if `"." + zone` occurs nowhere in the FQDN (as a
substring, hence in particular not as a suffix), `extractRecordName`
returns the FQDN with any trailing dot stripped. -/
theorem extractRecordName_of_no_occurrence (f z : GoString)
    (h : ∀ j, j < f.length → ('.' :: z).isPrefixOf (f.drop j) = false) :
    extractRecordName f z = unFqdn f := by
  cases hidx : strIndex ('.' :: z) f with
  | none =>
    unfold extractRecordName
    rw [hidx]
  | some i =>
    have hpre := strIndex_some_isPrefixOf ('.' :: z) f i hidx
    have hibound : i < f.length := by
      by_contra hge
      have hnil : f.drop i = [] := by
        rw [List.drop_eq_nil_iff]
        omega
      rw [hnil] at hpre
      simp [List.isPrefixOf] at hpre
    have := h i hibound
    rw [hpre] at this
    simp at this

/-- Witness for the amended C2 at FQDN `a.b`, zone `x`. -/
theorem extractRecordName_of_no_occurrence_witness :
    extractRecordName ("a.b".toList) ("x".toList) = unFqdn ("a.b".toList) :=
  extractRecordName_of_no_occurrence ("a.b".toList) ("x".toList) (by decide)

-- ## Claims C3 and C8: `loadConfig`

/-- The default configuration built at the top of `loadConfig`. -/
def defaultConfig : customDNSProviderConfig :=
  { APITokenSecret :=
      { name := "dnspod-credentials".toList
        «namespace» := "default".toList }
    TTL := 600 }

/-- C8: `loadConfig` on an absent (nil) config input returns, with no
error, TTL 600 and the secret reference `default/dnspod-credentials`. -/
theorem loadConfig_absent_defaults :
    loadConfig none = .ok defaultConfig := by
  rfl

/-- C3 (code behavior at the failing input): a well-formed config that
sets `apiTokenSecret.name` and `apiTokenSecret.namespace` does NOT
overlay the defaults.  `encoding/json` only writes exported struct
fields, and `apiTokenSecretRef.name` / `.namespace` are unexported with
no `json:` tags, so the supplied values are silently dropped and the
defaults `dnspod-credentials` / `default` survive. -/
theorem loadConfig_drops_secret_ref_keys :
    loadConfig (some (.wellFormed (.obj
      [("apiTokenSecret".toList, .obj
          [("name".toList, .str ("my-secret".toList)),
           ("namespace".toList, .str ("my-ns".toList))])])))
      = .ok defaultConfig := by
  rfl

-- ## Claims C4 and C7: `getDNSPod` and the credential cache

/-- C4: the cache discipline of `getDNSPod`.  When an entry cached under
`namespace/name` carries the same secret version as the fetched secret,
that entry's client is returned and the cache is untouched (no rebuild).
When there is no entry or the versions differ (and the secret carries
its `id` and `token` fields), the client built from the secret is
returned and stored under that key with the new version. -/
theorem getDNSPod_cache_discipline (env : Env) (cache : Cache)
    (cfg : customDNSProviderConfig) (secret : Secret)
    (hsecret : env.getSecret cfg.APITokenSecret.«namespace»
      cfg.APITokenSecret.name = .ok secret) :
    (∀ cached, cache.lookup (secretFQN cfg) = some cached →
        cached.secretVersion = secret.resourceVersion →
        getDNSPod env cache cfg = (.ok cached.client, cache)) ∧
    (∀ apiId apiToken,
        secret.data.lookup ("id".toList) = some apiId →
        secret.data.lookup ("token".toList) = some apiToken →
        (cache.lookup (secretFQN cfg) = none ∨
          ∃ cached, cache.lookup (secretFQN cfg) = some cached ∧
            cached.secretVersion ≠ secret.resourceVersion) →
        getDNSPod env cache cfg =
          (.ok { loginToken := apiId ++ ',' :: apiToken, format := "json".toList },
           (secretFQN cfg,
             { client := { loginToken := apiId ++ ',' :: apiToken
                           format := "json".toList }
               secretVersion := secret.resourceVersion }) :: cache)) := by
  constructor
  · intro cached hlook hver
    simp only [getDNSPod, hsecret, hlook, hver, if_pos]
  · intro apiId apiToken hid htok hmiss
    rcases hmiss with hnone | ⟨cached, hlook, hver⟩
    · simp only [getDNSPod, hsecret, hnone, buildAndStore, hid, htok]
    · simp only [getDNSPod, hsecret, hlook, hver, buildAndStore, hid, htok]
      simp

/-- Witness environment: a secret store holding a secret with `id` and
`token` fields at version `v1`, and inert DNSPod oracles. -/
def testSecret : Secret :=
  { data := [("id".toList, "A".toList), ("token".toList, "B".toList)]
    resourceVersion := "v1".toList }

/-- The client `getDNSPod` builds from `testSecret`. -/
def testClient : DnspodClient :=
  { loginToken := "A,B".toList, format := "json".toList }

/-- An environment whose secret store always answers `testSecret` and
whose DNSPod oracles are inert. -/
def testEnv : Env :=
  { getSecret := fun _ _ => .ok testSecret
    listDomains := .ok []
    findZoneByFqdn := fun z => .ok z
    listRecords := fun _ _ => ([], .ok ())
    deleteRecord := fun _ _ => .ok () }

/-- Witness for C4 (cache-hit half): with `testSecret` cached at the
same version, the cached client comes back and the cache is unchanged. -/
theorem getDNSPod_cache_discipline_witness :
    getDNSPod testEnv
      [(secretFQN defaultConfig,
        { client := testClient, secretVersion := "v1".toList })]
      defaultConfig
      = (.ok testClient,
         [(secretFQN defaultConfig,
           { client := testClient, secretVersion := "v1".toList })]) :=
  (getDNSPod_cache_discipline testEnv
      [(secretFQN defaultConfig,
        { client := testClient, secretVersion := "v1".toList })]
      defaultConfig testSecret rfl).1
    { client := testClient, secretVersion := "v1".toList }
    (by decide) rfl

/-- C7: on the rebuild path (no cached entry, or a version mismatch), a
secret lacking its `id` field — or carrying `id` but lacking `token` —
makes `getDNSPod` fail with a descriptive error naming the missing field
and the secret, and the cache is left unchanged (nothing is stored). -/
theorem getDNSPod_missing_credentials (env : Env) (cache : Cache)
    (cfg : customDNSProviderConfig) (secret : Secret)
    (hsecret : env.getSecret cfg.APITokenSecret.«namespace»
      cfg.APITokenSecret.name = .ok secret)
    (hmiss : cache.lookup (secretFQN cfg) = none ∨
      ∃ cached, cache.lookup (secretFQN cfg) = some cached ∧
        cached.secretVersion ≠ secret.resourceVersion) :
    (secret.data.lookup ("id".toList) = none →
      getDNSPod env cache cfg =
        (.error ("no `id` in secret '".toList ++ secretFQN cfg ++ "'".toList),
         cache)) ∧
    (∀ apiId, secret.data.lookup ("id".toList) = some apiId →
      secret.data.lookup ("token".toList) = none →
      getDNSPod env cache cfg =
        (.error ("no `token` in secret '".toList ++ secretFQN cfg ++ "'".toList),
         cache)) := by
  constructor
  · intro hid
    rcases hmiss with hnone | ⟨cached, hlook, hver⟩
    · simp only [getDNSPod, hsecret, hnone, buildAndStore, hid]
    · simp only [getDNSPod, hsecret, hlook, hver, buildAndStore, hid]
      simp
  · intro apiId hid htok
    rcases hmiss with hnone | ⟨cached, hlook, hver⟩
    · simp only [getDNSPod, hsecret, hnone, buildAndStore, hid, htok]
    · simp only [getDNSPod, hsecret, hlook, hver, buildAndStore, hid, htok]
      simp

/-- A secret carrying only a `token` field (no `id`), at version `v2`. -/
def testSecretNoId : Secret :=
  { data := [("token".toList, "B".toList)]
    resourceVersion := "v2".toList }

/-- An environment whose secret store answers `testSecretNoId`. -/
def testEnvNoId : Env :=
  { testEnv with getSecret := fun _ _ => .ok testSecretNoId }

/-- Witness for C7 at an empty cache: the `id`-less secret produces the
descriptive error and stores nothing. -/
theorem getDNSPod_missing_credentials_witness :
    getDNSPod testEnvNoId [] defaultConfig
      = (.error ("no `id` in secret '".toList ++ secretFQN defaultConfig
          ++ "'".toList), []) :=
  (getDNSPod_missing_credentials testEnvNoId [] defaultConfig testSecretNoId
    rfl (Or.inl rfl)).1 rfl

-- ## Claim C9: `getDomainID`

/-- C9: when the domain listing and zone resolution succeed,
`getDomainID` returns an identifier exactly in the case where some
listed domain (the first, by provider order) has the authoritative
zone's trailing-dot-stripped name and its `ID` parses to a nonzero
integer; a missing match (whose zero-value `ID` is the unparseable
empty string), a zero identifier, or an unparseable identifier all
yield errors. -/
theorem getDomainID_match_discipline (env : Env) (zone : GoString)
    (domains : List Domain) (authZone : GoString)
    (hdoms : env.listDomains = .ok domains)
    (hzone : env.findZoneByFqdn zone = .ok authZone) :
    (∀ id, getDomainID env zone = .ok id →
      ∃ d, domains.find? (fun d => d.name == unFqdn authZone) = some d ∧
        ∃ n, goParseInt64 d.id = .ok n ∧ n ≠ 0 ∧ id = goFormatInt n) ∧
    ((domains.find? (fun d => d.name == unFqdn authZone) = none ∨
      ∃ d, domains.find? (fun d => d.name == unFqdn authZone) = some d ∧
        (goParseInt64 d.id = .ok 0 ∨ ∃ e, goParseInt64 d.id = .error e)) →
      ∃ e, getDomainID env zone = .error e) := by
  constructor
  · intro id hok
    simp only [getDomainID, hdoms, hzone] at hok
    cases hfind : domains.find? (fun d => d.name == unFqdn authZone) with
    | none =>
      rw [hfind] at hok
      simp [goParseInt64] at hok
    | some d =>
      rw [hfind] at hok
      simp only [Option.getD_some] at hok
      cases hparse : goParseInt64 d.id with
      | error e => rw [hparse] at hok; simp at hok
      | ok n =>
        rw [hparse] at hok
        by_cases hn : n = 0
        · simp [hn] at hok
        · simp [hn] at hok
          exact ⟨d, rfl, n, hparse, hn, hok.symm⟩
  · intro hbad
    simp only [getDomainID, hdoms, hzone]
    rcases hbad with hnone | ⟨d, hfind, hparse⟩
    · rw [hnone]
      simp [goParseInt64]
    · rw [hfind]
      simp only [Option.getD_some]
      rcases hparse with hzero | ⟨e, herr⟩
      · rw [hzero]
        simp
      · rw [herr]
        simp

/-- An environment listing one hosted domain `example.com` with ID 123. -/
def testDomainEnv : Env :=
  { testEnv with
    listDomains := .ok [{ id := "123".toList, name := "example.com".toList }] }

/-- Witness for C9: with the single hosted domain `example.com` (ID 123)
and authoritative zone `example.com.`, the success case exhibits the
matching domain and its nonzero parsed identifier. -/
theorem getDomainID_match_discipline_witness :
    ∃ d, (([{ id := "123".toList, name := "example.com".toList }] : List Domain).find?
        (fun d => d.name == unFqdn ("example.com.".toList))) = some d ∧
      ∃ n, goParseInt64 d.id = .ok n ∧ n ≠ 0 ∧ "123".toList = goFormatInt n :=
  (getDomainID_match_discipline testDomainEnv ("example.com.".toList)
      [{ id := "123".toList, name := "example.com".toList }]
      ("example.com.".toList) rfl rfl).1 ("123".toList) rfl

-- ## Facts about the `CleanUp` deletion loop

/-- When every matching deletion succeeds, the loop succeeds and issues
one deletion per record whose value equals the key, in listing order. -/
theorem cleanupLoop_all_ok (key : GoString)
    (del : GoString → Except GoString Unit) (records : List Record)
    (hdel : ∀ r ∈ records, r.value = key → del r.id = .ok ()) :
    cleanupLoop key del records =
      ((records.filter fun r => r.value == key).map (fun r => r.id), .ok ()) := by
  induction records with
  | nil => rfl
  | cons r rest ih =>
    unfold cleanupLoop
    by_cases hv : r.value = key
    · simp only [hv, ne_eq, not_true_eq_false, if_false,
        hdel r (List.mem_cons_self r rest) hv]
      rw [ih fun q hq hqv => hdel q (List.mem_cons_of_mem r hq) hqv]
      simp [hv]
    · simp only [ne_eq, hv, not_false_eq_true, if_true]
      rw [ih fun q hq hqv => hdel q (List.mem_cons_of_mem r hq) hqv]
      simp [hv]

/-- Unconditionally, every deletion the loop issues targets the ID of a
listed record whose value equals the key. -/
theorem cleanupLoop_issued_subset (key : GoString)
    (del : GoString → Except GoString Unit) (records : List Record) :
    ∀ id ∈ (cleanupLoop key del records).1,
      ∃ r ∈ records, r.id = id ∧ r.value = key := by
  induction records with
  | nil => intro id h; simp [cleanupLoop] at h
  | cons r rest ih =>
    intro id h
    unfold cleanupLoop at h
    by_cases hv : r.value = key
    · simp only [hv, ne_eq, not_true_eq_false, if_false] at h
      cases hd : del r.id with
      | error e =>
        rw [hd] at h
        simp only [List.mem_singleton] at h
        exact ⟨r, List.mem_cons_self r rest, h.symm, hv⟩
      | ok u =>
        rw [hd] at h
        simp only [List.mem_cons] at h
        rcases h with h | h
        · exact ⟨r, List.mem_cons_self r rest, h.symm, hv⟩
        · obtain ⟨q, hq, hqid, hqv⟩ := ih id h
          exact ⟨q, List.mem_cons_of_mem r hq, hqid, hqv⟩
    · simp only [ne_eq, hv, not_false_eq_true, if_true] at h
      obtain ⟨q, hq, hqid, hqv⟩ := ih id h
      exact ⟨q, List.mem_cons_of_mem r hq, hqid, hqv⟩

/-- When a matching record's deletion fails, the loop returns that error
after issuing deletions only for the earlier matching records and the
failing one; the records after it are never touched. -/
theorem cleanupLoop_fail_stops (key : GoString)
    (del : GoString → Except GoString Unit) (pre post : List Record)
    (r : Record) (e : GoString)
    (hpre : ∀ q ∈ pre, q.value = key → del q.id = .ok ())
    (hr : r.value = key) (hfail : del r.id = .error e) :
    cleanupLoop key del (pre ++ r :: post) =
      ((pre.filter fun q => q.value == key).map (fun q => q.id) ++ [r.id],
       .error e) := by
  induction pre with
  | nil =>
    simp only [List.nil_append]
    unfold cleanupLoop
    simp only [hr, ne_eq, not_true_eq_false, if_false, hfail]
    simp
  | cons q rest ih =>
    simp only [List.cons_append]
    unfold cleanupLoop
    by_cases hqv : q.value = key
    · simp only [hqv, ne_eq, not_true_eq_false, if_false,
        hpre q (List.mem_cons_self q rest) hqv]
      rw [ih fun p hp hpv => hpre p (List.mem_cons_of_mem q hp) hpv]
      simp [hqv]
    · simp only [ne_eq, hqv, not_false_eq_true, if_true]
      rw [ih fun p hp hpv => hpre p (List.mem_cons_of_mem q hp) hpv]
      simp [hqv]

-- ## Claims C5, C6 and C10: `CleanUp`

/-- Containment survives prepending (used to carry a `No records`
marker in a raw API error through `findTxtRecords`'s wrapping). -/
theorem goContains_append_left (t s sub : GoString)
    (h : goContains s sub = true) : goContains (t ++ s) sub = true := by
  unfold goContains at h ⊢
  obtain ⟨i, hi⟩ := Option.isSome_iff_exists.mp h
  have hp := strIndex_some_isPrefixOf sub s i hi
  apply strIndex_isSome_of_isPrefixOf sub (t ++ s) (t.length + i)
  have hdrop : (t ++ s).drop (t.length + i) = s.drop i := by
    simp [List.drop_append]
  rw [hdrop]
  exact hp

/-- C5: when config decoding, client resolution, domain location and the
record listing all succeed, `CleanUp` issues deletions only for listed
records whose value equals the challenge key (unconditionally), and when
those deletions succeed it deletes exactly the matching records, by
their provider-assigned IDs, and returns success. -/
theorem CleanUp_deletes_exactly_matching (env : Env) (cache : Cache)
    (ch : ChallengeRequest) (cfg : customDNSProviderConfig)
    (client : DnspodClient) (cache2 : Cache) (domainID : GoString)
    (records : List Record)
    (hcfg : loadConfig ch.config = .ok cfg)
    (hclient : getDNSPod env cache cfg = (.ok client, cache2))
    (hdom : getDomainID env ch.resolvedZone = .ok domainID)
    (hlist : env.listRecords domainID
      (extractRecordName ch.resolvedFQDN ch.resolvedZone) = (records, .ok ())) :
    (∀ id ∈ (CleanUp env cache ch).2.2,
      ∃ r ∈ records, r.id = id ∧ r.value = ch.key) ∧
    ((∀ r ∈ records, r.value = ch.key →
        env.deleteRecord domainID r.id = .ok ()) →
      CleanUp env cache ch =
        (.ok (), cache2,
         (records.filter fun r => r.value == ch.key).map (fun r => r.id))) := by
  have hC : CleanUp env cache ch =
      ((cleanupLoop ch.key (env.deleteRecord domainID) records).2, cache2,
       (cleanupLoop ch.key (env.deleteRecord domainID) records).1) := by
    simp only [CleanUp, hcfg, hclient, hdom, findTxtRecords, hlist]
  constructor
  · intro id hid
    rw [hC] at hid
    exact cleanupLoop_issued_subset ch.key (env.deleteRecord domainID) records id hid
  · intro hdel
    rw [hC, cleanupLoop_all_ok ch.key (env.deleteRecord domainID) records hdel]

/-- The challenge request used by the `CleanUp` witnesses: no per-request
config, zone `example.com.`, FQDN `_acme-challenge.example.com.`, key `key1`. -/
def testChallenge : ChallengeRequest :=
  { config := none
    resolvedZone := "example.com.".toList
    resolvedFQDN := "_acme-challenge.example.com.".toList
    key := "key1".toList }

/-- A TXT record matching the witness challenge key. -/
def testRecordA : Record :=
  { id := "1".toList, name := "_acme-challenge".toList
    recordType := "TXT".toList, value := "key1".toList
    line := "default".toList, ttl := "600".toList }

/-- A TXT record with the same name but a different value. -/
def testRecordB : Record :=
  { id := "2".toList, name := "_acme-challenge".toList
    recordType := "TXT".toList, value := "key2".toList
    line := "default".toList, ttl := "600".toList }

/-- A second TXT record matching the witness challenge key. -/
def testRecordC : Record :=
  { id := "3".toList, name := "_acme-challenge".toList
    recordType := "TXT".toList, value := "key1".toList
    line := "default".toList, ttl := "600".toList }

/-- The cache state after the witness environments' `getDNSPod` call. -/
def testCache2 : Cache :=
  [(secretFQN defaultConfig,
    { client := testClient, secretVersion := "v1".toList })]

/-- Environment for the C5 witness: one matching and one non-matching
record under the challenge name; deletions always succeed. -/
def testCleanupEnv : Env :=
  { getSecret := fun _ _ => .ok testSecret
    listDomains := .ok [{ id := "123".toList, name := "example.com".toList }]
    findZoneByFqdn := fun z => .ok z
    listRecords := fun _ _ => ([testRecordA, testRecordB], .ok ())
    deleteRecord := fun _ _ => .ok () }

/-- Witness for C5: exactly the matching record (ID 1) is deleted; the
record with value `key2` is untouched. -/
theorem CleanUp_deletes_exactly_matching_witness :
    CleanUp testCleanupEnv [] testChallenge
      = (.ok (), testCache2, ["1".toList]) :=
  (CleanUp_deletes_exactly_matching testCleanupEnv [] testChallenge
      defaultConfig testClient testCache2 ("123".toList)
      [testRecordA, testRecordB] rfl rfl rfl rfl).2 (fun _ _ _ => rfl)

/-- C6: when config decoding, client resolution and domain location
succeed and the record-listing call fails with a `No records` condition
(returning no records), `CleanUp` swallows the listing error and
returns success. -/
theorem CleanUp_no_records_success (env : Env) (cache : Cache)
    (ch : ChallengeRequest) (cfg : customDNSProviderConfig)
    (client : DnspodClient) (cache2 : Cache) (domainID msg : GoString)
    (hcfg : loadConfig ch.config = .ok cfg)
    (hclient : getDNSPod env cache cfg = (.ok client, cache2))
    (hdom : getDomainID env ch.resolvedZone = .ok domainID)
    (hlist : env.listRecords domainID
      (extractRecordName ch.resolvedFQDN ch.resolvedZone) = ([], .error msg))
    (hmsg : goContains msg ("No records".toList) = true) :
    CleanUp env cache ch = (.ok (), cache2, []) := by
  have hwrap : goContains ("dnspod API call has failed: ".toList ++ msg)
      ("No records".toList) = true :=
    goContains_append_left ("dnspod API call has failed: ".toList) msg
      ("No records".toList) hmsg
  simp only [CleanUp, hcfg, hclient, hdom, findTxtRecords, hlist, hwrap]
  rfl

/-- Environment for the C6 witness: the listing call fails with the
DNSPod `No records` answer. -/
def testNoRecordsEnv : Env :=
  { testCleanupEnv with
    listRecords := fun _ _ => ([], .error ("No records".toList)) }

/-- Witness for C6: `CleanUp` succeeds although the listing failed. -/
theorem CleanUp_no_records_success_witness :
    CleanUp testNoRecordsEnv [] testChallenge = (.ok (), testCache2, []) :=
  CleanUp_no_records_success testNoRecordsEnv [] testChallenge
    defaultConfig testClient testCache2 ("123".toList) ("No records".toList)
    rfl rfl rfl rfl (by decide)

/-- C10: when a matching record's deletion fails, `CleanUp` returns that
deletion error at once; deletions were issued for the earlier matching
records and the failing one only — matching records later in the listing
are never deleted. -/
theorem CleanUp_delete_failure_stops (env : Env) (cache : Cache)
    (ch : ChallengeRequest) (cfg : customDNSProviderConfig)
    (client : DnspodClient) (cache2 : Cache) (domainID : GoString)
    (pre post : List Record) (r : Record) (e : GoString)
    (hcfg : loadConfig ch.config = .ok cfg)
    (hclient : getDNSPod env cache cfg = (.ok client, cache2))
    (hdom : getDomainID env ch.resolvedZone = .ok domainID)
    (hlist : env.listRecords domainID
      (extractRecordName ch.resolvedFQDN ch.resolvedZone)
      = (pre ++ r :: post, .ok ()))
    (hpre : ∀ q ∈ pre, q.value = ch.key →
      env.deleteRecord domainID q.id = .ok ())
    (hr : r.value = ch.key)
    (hfail : env.deleteRecord domainID r.id = .error e) :
    CleanUp env cache ch =
      (.error e, cache2,
       (pre.filter fun q => q.value == ch.key).map (fun q => q.id)
         ++ [r.id]) := by
  simp only [CleanUp, hcfg, hclient, hdom, findTxtRecords, hlist]
  rw [cleanupLoop_fail_stops ch.key (env.deleteRecord domainID) pre post r e
    hpre hr hfail]

/-- Environment for the C10 witness: two records matching the key (IDs 1
and 3) around a non-matching one; deleting record 1 fails. -/
def testFailDeleteEnv : Env :=
  { testCleanupEnv with
    listRecords := fun _ _ => ([testRecordA, testRecordB, testRecordC], .ok ())
    deleteRecord := fun _ id =>
      if id = "1".toList then .error ("api error".toList) else .ok () }

/-- Witness for C10: with matching records 1 and 3 listed in that order
and the deletion of record 1 failing, `CleanUp` returns the deletion
error having issued only the deletion of record 1 — record 3 survives. -/
theorem CleanUp_delete_failure_stops_witness :
    CleanUp testFailDeleteEnv [] testChallenge
      = (.error ("api error".toList), testCache2, ["1".toList]) :=
  CleanUp_delete_failure_stops testFailDeleteEnv [] testChallenge
    defaultConfig testClient testCache2 ("123".toList)
    [] [testRecordB, testRecordC] testRecordA ("api error".toList)
    rfl rfl rfl rfl (fun q hq _ => absurd hq (List.not_mem_nil q)) rfl rfl
